import Mathlib

/-!
Verification of the knowledge-grounding and intent-resolution pipeline of the
Be Cre8v playground backend (`src/api/playground.js`).  JavaScript strings are
modelled as lists of characters; each definition below is a direct translation
of the correspondingly named function in the source file.
-/

set_option maxHeartbeats 4000000
set_option maxRecDepth 10000

/-- JavaScript strings, modelled as lists of characters. -/
abbrev Str := List Char

/-- Character list of a Lean string literal. -/
def strL (x : String) : Str := x.data

/-- ASCII fragment of `String.prototype.toLowerCase` on a single character. -/
def lcChar (c : Char) : Char :=
  if 65 ≤ c.toNat && c.toNat ≤ 90 then Char.ofNat (c.toNat + 32) else c

/-- `String.prototype.toLowerCase` (ASCII fragment). -/
def jsToLower (s : Str) : Str := s.map lcChar

/-- Whitespace characters recognised by JS `\s` / `trim` (ASCII fragment). -/
def isJsWs (c : Char) : Bool :=
  c == ' ' || c == '\t' || c == '\n' || c == '\r' ||
  c == Char.ofNat 11 || c == Char.ofNat 12 || c == Char.ofNat 160

/-- `String.prototype.trim`. -/
def jsTrim (s : Str) : Str :=
  ((s.dropWhile isJsWs).reverse.dropWhile isJsWs).reverse

/-- `hay.includes(pat)` substring test. -/
def containsSub (hay pat : Str) : Bool := hay.tails.any (fun t => pat.isPrefixOf t)

mutual

/-- `String.prototype.split(/\s+/)`: a leading separator yields an empty first
field and a trailing separator an empty last field, exactly as in JS. -/
def wsGo : Str → Str → List Str
  | [], cur => [cur.reverse]
  | c :: rest, cur =>
    if isJsWs c then cur.reverse :: wsSkip rest else wsGo rest (c :: cur)

/-- Inside a whitespace run during `jsSplitWs`. -/
def wsSkip : Str → List Str
  | [] => [[]]
  | c :: rest => if isJsWs c then wsSkip rest else wsGo rest [c]
end

def jsSplitWs (s : Str) : List Str := wsGo s []

/-- `s.replace(/[^a-z0-9]+/g, "")` on an already lower-cased string. -/
def alnumOnly (s : Str) : Str :=
  s.filter (fun c => ('a' ≤ c && c ≤ 'z') || ('0' ≤ c && c ≤ '9'))

/-- `Array.prototype.join(sep)`. -/
def joinSep (sep : Str) : List Str → Str
  | [] => []
  | [x] => x
  | x :: y :: rest => x ++ sep ++ joinSep sep (y :: rest)

/-- Decimal rendering of a number, as JS template literals do for integers. -/
def natToStr (n : Nat) : Str := (Nat.repr n).data

/-- JS truthiness of a string-or-null value (`null`, `undefined` and the empty
string are falsy). -/
def jsTruthyOpt : Option Str → Bool
  | none => false
  | some s => !s.isEmpty

/- -------------------- Project Detection (detectProject) -------------------- -/

/-- Score one candidate name against the lower-cased input, as computed by the
loop body of `detectProject` (substring, word-overlap with all-words bonus, and
alphanumeric-collapsed substring). -/
def projectScore (lower pName : Str) : Nat :=
  let pLower := jsToLower pName
  let score1 := if containsSub lower pLower then pLower.length * 2 else 0
  let pWords := jsSplitWs pLower
  let tWords := jsSplitWs lower
  let matchedWords := pWords.filter (fun w => tWords.contains w)
  let score2 :=
    if 0 < matchedWords.length then
      matchedWords.length * 3 + (if matchedWords.length == pWords.length then 10 else 0)
    else 0
  let pSimple := alnumOnly pLower
  let tSimple := alnumOnly lower
  let score3 := if containsSub tSimple pSimple then pSimple.length else 0
  score1 + score2 + score3

/-- Outcome of the scanning loop of `detectProject`: either an exact
case-insensitive match returned immediately, or the final best state. -/
inductive ScanOut where
  | exact (n : Str)
  | finish (best : Option Str) (bestScore : Nat)

/-- The candidate loop of `detectProject`: exact match short-circuits, a
strictly larger score displaces the current best. -/
def detectProjectScan (lower : Str) : List Str → Option Str → Nat → ScanOut
  | [], best, bestScore => .finish best bestScore
  | pName :: rest, best, bestScore =>
    if lower == jsToLower pName then .exact pName
    else
      let score := projectScore lower pName
      if bestScore < score then detectProjectScan lower rest (some pName) score
      else detectProjectScan lower rest best bestScore

/-- `detectProject(text, projectNames)`: lower-case and trim the input, scan
all candidates, and accept the best match only when its score is at least 3. -/
def detectProject (text : Str) (projectNames : List Str) : Option Str :=
  match detectProjectScan (jsTrim (jsToLower text)) projectNames none 0 with
  | .exact n => some n
  | .finish best bestScore => if 3 ≤ bestScore then best else none

/-- The canonical project-name list hard-coded in `extractProjectNames`. -/
def fallbackProjectNames : List Str :=
  [strL ("Hello World!"), strL ("Mood Lamp"), strL ("Game Controller"),
   strL ("Coin Counter"), strL ("Smart Box"), strL ("Musical Instrument"),
   strL ("Toll Booth"), strL ("Analog Meter"), strL ("DJ Nights"),
   strL ("Roll The Dice"), strL ("Table Fan"), strL ("Disco Lights"),
   strL ("Motion Activated Wave Sensor"), strL ("RGB Color Mixer"),
   strL ("The Fruit Game"), strL ("The Ping Pong Game"),
   strL ("The UFO Shooter Game"), strL ("The Extension Wire"),
   strL ("Light Intensity Meter"), strL ("Pulley LED"), strL ("Candle Lamp")]

/- -------------------- Lessons and their topical rank -------------------- -/

/-- A lesson record as built by `extractLessons`. -/
structure Lesson where
  lessonName : Str
  videoLinks : List Str
  explainLine : Str
deriving DecidableEq, Repr

/-- `lessonRank`: fixed topical rank used to order a project's lessons. -/
def lessonRank (lessonName : Str) : Nat :=
  let n := jsToLower lessonName
  if containsSub n (strL ("connection")) then 1
  else if containsSub n (strL ("build")) then 2
  else if containsSub n (strL ("coding")) then 3
  else if containsSub n (strL ("working")) then 4
  else if containsSub n (strL ("intro")) then 5
  else 99

/-- Insert a lesson after every already-placed lesson of smaller or equal
rank.  Folding this over the input is exactly the stable sort performed by
`lessons.sort((a, b) => lessonRank(a.lessonName) - lessonRank(b.lessonName))`
(ES2019 guarantees `Array.prototype.sort` is stable). -/
def insAfterLe (x : Lesson) : List Lesson → List Lesson
  | [] => [x]
  | y :: ys =>
    if lessonRank y.lessonName ≤ lessonRank x.lessonName then y :: insAfterLe x ys
    else x :: y :: ys

/-- The stable sort by `lessonRank` applied in `buildIndexes`. -/
def sortLessons (l : List Lesson) : List Lesson :=
  l.foldl (fun acc x => insAfterLe x acc) []

/- -------------------- Intent Detection (detectIntent) -------------------- -/

/-- The closed intent tag set returned by `detectIntent`. -/
inductive Intent where
  | KIT_OVERVIEW | COMPONENTS_LIST | COMPONENT_INFO
  | LIST_PROJECTS | PROJECT_VIDEOS | GENERAL
deriving DecidableEq, Repr

/-- One component record of the components map (`componentsMap[id]`). -/
structure ComponentData where
  name : Option Str
  description : Str
deriving DecidableEq, Repr

/-- Ordered occurrence of one alternative from each group, used to interpret
the `detectIntent` regexes of the form `/lit1.*(a|b).*lit2/`: such a test
succeeds iff the (lower-cased) string contains, in order and without overlap,
one alternative of each group. -/
def existsOrdered : List (List Str) → Str → Bool
  | [], _ => true
  | alts :: rest, s =>
    s.tails.any (fun t => alts.any (fun a =>
      a.isPrefixOf t && existsOrdered rest (t.drop a.length)))

/-- Split at newline characters; `.` in a JS regex does not match a newline,
so a `.*` pattern must find all its parts inside a single line. -/
def linesOf (s : Str) : List Str := s.splitOnP (fun c => c == '\n' || c == '\r')

/-- Test a `lit1.*(…).*lit2`-shaped regex against a (lower-cased) string. -/
def seqTest (pats : List (List Str)) (s : Str) : Bool :=
  (linesOf s).any (fun line => existsOrdered pats line)

/-- `detectIntent(text, projectNames, componentsMap)`.  Note: in the source
the kit-overview condition is `A || B || C || (D && !brain) && !hasProject` and
JS `&&` binds tighter than `||`, so the project-name suppression applies only
to the `what.*robocoders` disjunct. -/
def detectIntent (text : Str) (projectNames : List Str)
    (componentsMap : List (Str × ComponentData)) : Intent :=
  let lower := jsTrim (jsToLower text)
  let hasProjectName := projectNames.any (fun proj => containsSub lower (jsToLower proj))
  let kitA := seqTest [[strL ("what")],
    [strL ("is"), strL ("in"), strL ("about"), strL ("contains"), strL ("contain")],
    [strL ("kit")]] lower
  let kitB := seqTest [[strL ("tell me about")], [strL ("kit")]] lower
  let kitC := seqTest [[strL ("kit")], [strL ("overview")]] lower
  let kitD := seqTest [[strL ("what")], [strL ("robocoders")]] lower
  if kitA || kitB || kitC ||
      (kitD && !containsSub lower (strL ("brain")) && !hasProjectName) then
    .KIT_OVERVIEW
  else if seqTest [[strL ("what")],
        [strL ("components"), strL ("component"), strL ("parts"), strL ("part"),
         strL ("pieces"), strL ("piece")], [strL ("kit")]] lower ||
      seqTest [[strL ("list")], [strL ("components"), strL ("component")]] lower ||
      seqTest [[strL ("show")], [strL ("components"), strL ("component")]] lower ||
      seqTest [[strL ("components"), strL ("component")], [strL ("list")]] lower then
    .COMPONENTS_LIST
  else
    let componentKeywords := componentsMap.filterMap (fun kv =>
      match kv.2.name with
      | some nm => let l := jsToLower nm; if l.isEmpty then none else some l
      | none => none)
    let hasComponentMention := componentKeywords.any (fun comp => containsSub lower comp)
    let isAskingAboutComponent := hasComponentMention &&
      (seqTest [[strL ("what")], [strL ("is"), strL ("does")]] lower ||
       containsSub lower (strL ("tell me about")) ||
       seqTest [[strL ("how")], [strL ("works"), strL ("work"), strL ("use")]] lower ||
       containsSub lower (strL ("explain")))
    if isAskingAboutComponent && !hasProjectName then
      .COMPONENT_INFO
    else if seqTest [[strL ("list"), strL ("show"), strL ("what are"), strL ("tell me")],
          [strL ("projects"), strL ("project"), strL ("modules"), strL ("module")]] lower ||
        containsSub lower (strL ("how many project")) ||
        containsSub lower (strL ("all project")) then
      .LIST_PROJECTS
    else if seqTest [[strL ("video"), strL ("lesson"), strL ("tutorial"),
          strL ("how to build"), strL ("how to make"), strL ("how to create")],
          [strL ("project"), strL ("module")]] lower ||
        seqTest [[strL ("show")], [strL ("videos"), strL ("video")]] lower ||
        seqTest [[strL ("project"), strL ("module")],
          [strL ("video"), strL ("lesson")]] lower then
      .PROJECT_VIDEOS
    else .GENERAL

/- ---------------- Support-Escalation Detection (detectSupportFailure) ---------------- -/

/-- The failure reasons returned by `detectSupportFailure`. -/
inductive SupportReason where
  | USER_REQUESTED_SUPPORT | PART_MISSING | HARDWARE_DAMAGED
  | UNKNOWN_COMPONENT | PROJECT_NOT_IN_KB
deriving DecidableEq, Repr

/-- Contact/support-seeking keywords (precedence 1). -/
def supportContactPats : List Str :=
  [strL ("contact"), strL ("customer support"), strL ("support team"),
   strL ("call"), strL ("email"), strL ("phone"), strL ("helpline")]

/-- Missing-part keywords (precedence 2). -/
def partMissingPats : List Str :=
  [strL ("missing"), strL ("not in kit"), strL ("not included"), strL ("lost"),
   strL ("component missing"), strL ("nahi mila"), strL ("gayab")]

/-- Damage keywords (precedence 3). -/
def hardwareDamagedPats : List Str :=
  [strL ("broken"), strL ("damaged"), strL ("burnt"), strL ("burned"),
   strL ("melted"), strL ("smoke"), strL ("dead"), strL ("faulty"),
   strL ("cracked"), strL ("not powering")]

/-- Generic hardware nouns (precedence 4). -/
def genericHardwarePats : List Str :=
  [strL ("sensor"), strL ("motor"), strL ("board"), strL ("wire"), strL ("led"),
   strL ("wheel"), strL ("fan"), strL ("blade"), strL ("battery"),
   strL ("switch"), strL ("sheet")]

/-- An alternation regex such as `/missing|lost|…/` tests whether any of its
literal alternatives occurs in the string. -/
def anyPat (lower : Str) (pats : List Str) : Bool :=
  pats.any (fun p => containsSub lower p)

/-- `detectSupportFailure({userText, detectedProject, projectContext,
detectedComponent})`: fixed-precedence keyword checks, first match wins. -/
def detectSupportFailure (userText : Str) (detectedProject : Option Str)
    (projectContext : Option Str) (detectedComponent : Option Str) :
    Option SupportReason :=
  let lower := jsToLower userText
  if anyPat lower supportContactPats then some .USER_REQUESTED_SUPPORT
  else if anyPat lower partMissingPats then some .PART_MISSING
  else if anyPat lower hardwareDamagedPats then some .HARDWARE_DAMAGED
  else if anyPat lower genericHardwarePats && !jsTruthyOpt detectedComponent &&
      !jsTruthyOpt detectedProject then some .UNKNOWN_COMPONENT
  else if jsTruthyOpt detectedProject && !jsTruthyOpt projectContext then
    some .PROJECT_NOT_IN_KB
  else none

/- -------------------- Small utility functions of the source -------------------- -/

/-- A JS template literal renders `undefined` as the string "undefined". -/
def strOfOptUndef : Option Str → Str
  | some s => s
  | none => strL ("undefined")

/-- Worker for `uniq` carrying the `seen` set. -/
def uniqGo : List Str → List Str → List Str
  | [], _ => []
  | x :: rest, seen =>
    let k := jsTrim x
    if k.isEmpty || seen.contains k then uniqGo rest seen
    else k :: uniqGo rest (k :: seen)

/-- `uniq(arr)`: trim entries, drop empties and duplicates, keep first order. -/
def uniq (arr : List Str) : List Str := uniqGo arr []

/-- `cleanExplain(s)`: collapse all whitespace runs to single spaces and trim
(the source composes `replace(/\n+/g," ")`, `replace(/\s+/g," ")`, `trim()`). -/
def cleanExplain (s : Str) : Str := joinSep (strL (" ")) (jsSplitWs (jsTrim s))

/-- Worker for `dedupeLessons` carrying the `seen` key set. -/
def dedupeGo : List Lesson → List Str → List Lesson
  | [], _ => []
  | l :: rest, seen =>
    let key := jsToLower l.lessonName ++ strL ("::") ++ joinSep (strL (",")) l.videoLinks
    if key.isEmpty || seen.contains key then dedupeGo rest seen
    else l :: dedupeGo rest (key :: seen)

/-- `dedupeLessons(lessons)`: drop lessons whose (lower-cased name, links) key
was already seen. -/
def dedupeLessons (lessons : List Lesson) : List Lesson := dedupeGo lessons []

/-- `replace(/[ \t]+\n/g, "\n")`: drop spaces and tabs right before a newline. -/
def stripWsBeforeNl (s : Str) : Str :=
  s.foldr (fun c acc =>
    if (c == ' ' || c == '\t') && acc.head? == some '\n' then acc else c :: acc) []

/-- `replace(/\n{3,}/g, "\n\n")`: keep at most two newlines of every run. -/
def collapseNls (s : Str) : Str :=
  (s.foldr (fun c (acc : Str × Nat) =>
    if c == '\n' then
      if 2 ≤ acc.2 then (acc.1, acc.2 + 1) else ('\n' :: acc.1, acc.2 + 1)
    else (c :: acc.1, 0)) ([], 0)).1

/-- `sanitizeChunk(s)`: strip null bytes, trailing line whitespace, excess
blank lines, and trim. -/
def sanitizeChunk (s : Str) : Str :=
  jsTrim (collapseNls (stripWsBeforeNl (s.filter (fun c => c ≠ Char.ofNat 0))))

/- -------------------- Case-insensitive matching primitives -------------------- -/

/-- Case-insensitive prefix test (`lit` given in lower case). -/
def startsWithCi (s lit : Str) : Bool := (s.take lit.length).map lcChar == lit

/-- Consume a case-insensitive literal, returning the rest of the string. -/
def stripLitCi (lit s : Str) : Option Str :=
  if startsWithCi s lit then some (s.drop lit.length) else none

/-- Leftmost-match scan: try `f` at every suffix, left to right, as a JS regex
engine tries every start position. -/
def scanFor (f : Str → Option Str) : Str → Option Str
  | [] => f []
  | c :: rest =>
    match f (c :: rest) with
    | some r => some r
    | none => scanFor f rest

/-- Prefix of `s` up to (excluding) the first case-insensitive occurrence of
`lit`; the whole string when `lit` does not occur.  This is what a lazy
`([\s\S]*?)(?:lit|$)` capture matches. -/
def takeUntilCi (lit : Str) : Str → Str
  | [] => []
  | c :: rest => if startsWithCi (c :: rest) lit then [] else c :: takeUntilCi lit rest

/- ------------- Lesson-block regexes of the extractLessons fallback ------------- -/

/-- Length matched at the current position by the split delimiter
`/(Lesson ID\s*[:\-]|Build\s*\d+|Coding\s*Part\s*\d+)/i`, alternatives tried in
order as a JS regex does. -/
def delimLen (s : Str) : Option Nat :=
  match (do
      let r ← stripLitCi (strL ("lesson id")) s
      let r2 := r.dropWhile isJsWs
      match r2 with
      | ':' :: _ => some (s.length - r2.length + 1)
      | '-' :: _ => some (s.length - r2.length + 1)
      | _ => none) with
  | some n => some n
  | none =>
    match (do
        let r ← stripLitCi (strL ("build")) s
        let r2 := r.dropWhile isJsWs
        let d := r2.takeWhile Char.isDigit
        if d.isEmpty then none else some (s.length - r2.length + d.length)) with
    | some n => some n
    | none => do
      let r ← stripLitCi (strL ("coding")) s
      let r2 := r.dropWhile isJsWs
      let r3 ← stripLitCi (strL ("part")) r2
      let r4 := r3.dropWhile isJsWs
      let d := r4.takeWhile Char.isDigit
      if d.isEmpty then none else some (s.length - r4.length + d.length)

/-- Fuelled worker of `jsSplitCaps` (each step consumes at least one
character, so `length + 1` fuel suffices). -/
def splitCapsGo : Nat → Str → Str → List Str
  | 0, cur, rest => [cur.reverse ++ rest]
  | _ + 1, cur, [] => [cur.reverse]
  | fuel + 1, cur, c :: rest =>
    match delimLen (c :: rest) with
    | some n =>
      cur.reverse :: (c :: rest).take n :: splitCapsGo fuel [] ((c :: rest).drop n)
    | none => splitCapsGo fuel (c :: cur) rest

/-- `txt.split(/(delims)/i)` with a capturing group: the result alternates
plain segments and matched delimiters, starting with the text before the first
match. -/
def jsSplitCaps (s : Str) : List Str := splitCapsGo (s.length + 1) [] s

/-- `/Lesson Name\s*(?:\(Canonical\))?\s*:\s*([^\n]+)/i` tried at the current
position; returns the trimmed capture. -/
def canonNameAt (t : Str) : Option Str := do
  let r1 ← stripLitCi (strL ("lesson name")) t
  let r2 := r1.dropWhile isJsWs
  let r3 := match stripLitCi (strL ("(canonical)")) r2 with
    | some x => x.dropWhile isJsWs
    | none => r2
  match r3 with
  | ':' :: r4 =>
    let r5 := r4.dropWhile isJsWs
    let cap := r5.takeWhile (fun c => c ≠ '\n')
    if cap.isEmpty then none else some (jsTrim cap)
  | _ => none

/-- `/(Build\s*\d+)/i` tried at the current position; the capture keeps the
original casing of the text. -/
def buildNameAt (t : Str) : Option Str := do
  let r ← stripLitCi (strL ("build")) t
  let r2 := r.dropWhile isJsWs
  let d := r2.takeWhile Char.isDigit
  if d.isEmpty then none else some (jsTrim (t.take (t.length - r2.length + d.length)))

/-- `/(Coding\s*Part\s*\d+)/i` tried at the current position. -/
def codingNameAt (t : Str) : Option Str := do
  let r ← stripLitCi (strL ("coding")) t
  let r2 := r.dropWhile isJsWs
  let r3 ← stripLitCi (strL ("part")) r2
  let r4 := r3.dropWhile isJsWs
  let d := r4.takeWhile Char.isDigit
  if d.isEmpty then none else some (jsTrim (t.take (t.length - r4.length + d.length)))

/-- `matchLine` over the three lesson-name patterns combined with JS `||`
(an empty trimmed capture is falsy and falls through to the next pattern). -/
def lessonNameOf (block : Str) : Str :=
  let a := (scanFor canonNameAt block).getD []
  if !a.isEmpty then a
  else
    let b := (scanFor buildNameAt block).getD []
    if !b.isEmpty then b
    else (scanFor codingNameAt block).getD []

/-- `/https?:\/\/[^\s\]\)\}\n]+/i` tried at the current position; returns the
matched length. -/
def urlAt (s : Str) : Option Nat := do
  let r1 ← stripLitCi (strL ("http")) s
  let r2 := match r1 with
    | c :: rest => if lcChar c == 's' then rest else r1
    | [] => r1
  let r3 ← stripLitCi (strL ("://")) r2
  let body := r3.takeWhile (fun c =>
    !(isJsWs c || c == ']' || c == ')' || c == Char.ofNat 125))
  if body.isEmpty then none else some (s.length - r3.length + body.length)

/-- Fuelled worker collecting all matches of the URL regex with the `g` flag
(leftmost, non-overlapping). -/
def urlsGo : Nat → Str → List Str
  | 0, _ => []
  | _ + 1, [] => []
  | fuel + 1, c :: rest =>
    match urlAt (c :: rest) with
    | some n => (c :: rest).take n :: urlsGo fuel ((c :: rest).drop n)
    | none => urlsGo fuel rest

/-- `block.match(/https?:\/\/[^\s\]\)\}\n]+/gi) || []`. -/
def urlsIn (block : Str) : List Str := urlsGo (block.length + 1) block

/-- `/What this lesson helps with.*?:\s*([\s\S]*?)(?:When the AI|$)/i` tried at
the current position: the first colon on the same line, then a lazy capture up
to "When the AI" or the end of the string. -/
def explainAt (t : Str) : Option Str := do
  let r ← stripLitCi (strL ("what this lesson helps with")) t
  let line := r.takeWhile (fun c => c ≠ '\n')
  let i ← line.findIdx? (fun c => c == ':')
  let after := (r.drop (i + 1)).dropWhile isJsWs
  some (takeUntilCi (strL ("when the ai")) after)

/-- `matchLine(block, /What this lesson helps with…/i) || ""`. -/
def explainLineOf (block : Str) : Str := jsTrim ((scanFor explainAt block).getD [])

/- -------------------- The knowledge-base document model -------------------- -/

/-- A structured project record (`kb.projects[...]`). -/
structure KBProject where
  name : Option Str
  description : Option Str
  componentsUsed : Option (List Str)
  connections : Option (List Str)
  steps : Option (List Str)
deriving DecidableEq, Repr

/-- `kb.projects` may be an object map, an array, or absent. -/
inductive ProjectsField where
  | pobj (m : List (Str × KBProject))
  | parr (l : List KBProject)
  | pabsent
deriving DecidableEq, Repr

/-- A free-text page of the knowledge document (`kb.pages[i]`). -/
structure Page where
  ptype : Option Str
  projectName : Option Str
  componentId : Option Str
  componentName : Option Str
  text : Option Str
deriving DecidableEq, Repr

/-- `lesson.video_url` may be an array of links, a single link, or absent. -/
inductive VideoField where
  | varr (urls : List Str)
  | vstr (u : Str)
  | vabsent
deriving DecidableEq, Repr

/-- A structured lesson record (`kb.lessons[i]`). -/
structure KBLessonRec where
  project : Option Str
  lesson_name : Option Str
  video_url : VideoField
deriving DecidableEq, Repr

/-- `kb.overview`. -/
structure Overview where
  kitName : Option Str
  description : Option Str
  whatIsInside : Option Str
  keyFeatures : Option (List Str)
  totalProjects : Option Nat
  totalComponents : Option Nat
  ageRange : Option Str
deriving DecidableEq, Repr

/-- `kb.componentsSummary` (as consumed: a total count and category names). -/
structure ComponentsSummaryT where
  totalCount : Nat
  categories : List Str
deriving DecidableEq, Repr

/-- `kb.glossary`. -/
structure Glossary where
  components : Option (List (Str × ComponentData))
deriving DecidableEq, Repr

/-- The support-escalation configuration block (`kb.support`). -/
structure SupportCfg where
  enabled : Bool
  show_when : List Str
  message : Str
  email : Str
  phone : Str
  hours : Str
deriving DecidableEq, Repr

/-- The knowledge-base JSON document, restricted to the fields the source
reads. -/
structure KB where
  projects : ProjectsField
  pages : Option (List Page)
  lessons : Option (List KBLessonRec)
  overview : Option Overview
  componentsSummary : Option ComponentsSummaryT
  glossary : Option Glossary
  support : Option SupportCfg
deriving DecidableEq, Repr

/-- A knowledge base with every optional section absent. -/
def emptyKB : KB := ⟨.pabsent, none, none, none, none, none, none⟩

/- -------------------- Extraction functions -------------------- -/

/-- `extractProjectNames(kb)` always returns the hard-coded canonical list
regardless of the knowledge-base content. -/
def extractProjectNames (_kb : KB) : List Str := fallbackProjectNames

/-- `extractKitOverview(kb)`: render the overview fields in fixed order, or
fall back to the hard-coded kit description. -/
def extractKitOverview (kb : KB) : Str :=
  match kb.overview with
  | some o =>
    let parts :=
      (match o.kitName with
        | some k => if k.isEmpty then [] else [strL ("Kit: ") ++ k]
        | none => []) ++
      (match o.description with
        | some d => if d.isEmpty then [] else [d]
        | none => []) ++
      (match o.whatIsInside with
        | some w => if w.isEmpty then [] else [strL ("\nWhat\x27s Inside:\n") ++ w]
        | none => []) ++
      (match o.keyFeatures with
        | some fs => [strL ("\nKey Features:\n") ++
            joinSep (strL ("\n")) (fs.map (fun f => strL ("- ") ++ f))]
        | none => []) ++
      (match o.totalProjects with
        | some n => if n == 0 then [] else [strL ("\nTotal Projects: ") ++ natToStr n]
        | none => []) ++
      (match o.totalComponents with
        | some n => if n == 0 then [] else [strL ("Total Components: ") ++ natToStr n]
        | none => []) ++
      (match o.ageRange with
        | some a => if a.isEmpty then [] else [strL ("Age Range: ") ++ a]
        | none => [])
    joinSep (strL ("\n")) parts
  | none =>
    strL ("The Robocoders Kit is an educational electronics and coding kit for children aged 8-14. It includes 21 exciting projects and 92 components to learn physical computing, Visual Block Coding, and creative project building.")

/-- `extractComponentsSummary(kb)`. -/
def extractComponentsSummary (kb : KB) : ComponentsSummaryT :=
  match kb.componentsSummary with
  | some cs => cs
  | none =>
    match kb.glossary with
    | some g =>
      match g.components with
      | some m => { totalCount := m.length, categories := [] }
      | none => { totalCount := 92, categories := [] }
    | none => { totalCount := 92, categories := [] }

/-- `kb.projectsSummary` shape produced by `extractProjectsSummary`. -/
structure ProjectsSummaryT where
  totalCount : Nat
  projectList : List Str
deriving DecidableEq, Repr

/-- `extractProjectsSummary(kb)`. -/
def extractProjectsSummary (kb : KB) : ProjectsSummaryT :=
  let projectList := extractProjectNames kb
  { totalCount := projectList.length, projectList := projectList }

/-- `extractSupportConfig(kb)`: the support block only when its enabled flag
is truthy. -/
def extractSupportConfig (kb : KB) : Option SupportCfg :=
  match kb.support with
  | some c => if c.enabled then some c else none
  | none => none

/-- Continuation lines of the `extractDescriptionFromText` capture: further
lines not starting (case-insensitively) with Component/Type/Usage. -/
def descCont (s : Str) : Str :=
  match s with
  | '\n' :: rest =>
    let line := rest.takeWhile (fun c => c ≠ '\n')
    if line.isEmpty then []
    else if startsWithCi rest (strL ("component")) || startsWithCi rest (strL ("type")) ||
        startsWithCi rest (strL ("usage")) then []
    else '\n' :: (line ++ descCont (rest.drop line.length))
  | _ => []
termination_by s.length
decreasing_by simp [List.length_drop]; omega

/-- `/Description:\s*([^\n]+(?:\n(?!Component|Type|Usage)[^\n]+)*)/i` tried at
the current position. -/
def descAt (t : Str) : Option Str := do
  let r ← stripLitCi (strL ("description:")) t
  let r2 := r.dropWhile isJsWs
  let line := r2.takeWhile (fun c => c ≠ '\n')
  if line.isEmpty then none
  else some (jsTrim (line ++ descCont (r2.drop line.length)))

/-- `extractDescriptionFromText(text)`. -/
def extractDescriptionFromText (text : Str) : Str := (scanFor descAt text).getD []

/-- JS object insert: overwrite the value in place when the key exists,
append otherwise. -/
def objUpsert (m : List (Str × ComponentData)) (k : Str) (v : ComponentData) :
    List (Str × ComponentData) :=
  if m.any (fun kv => kv.1 == k) then
    m.map (fun kv => if kv.1 == k then (k, v) else kv)
  else m ++ [(k, v)]

/-- The page scan of `extractComponentsMap`. -/
def extractComponentsMapPages (kb : KB) : List (Str × ComponentData) :=
  match kb.pages with
  | some pl =>
    pl.foldl (fun m page =>
      if page.ptype == some (strL ("component")) &&
          jsTruthyOpt page.componentId && jsTruthyOpt page.componentName then
        objUpsert m (page.componentId.getD [])
          { name := page.componentName,
            description := extractDescriptionFromText (page.text.getD []) }
      else m) []
  | none => []

/-- `extractComponentsMap(kb)`: the glossary components if present, else a
scan of component-typed pages. -/
def extractComponentsMap (kb : KB) : List (Str × ComponentData) :=
  match kb.glossary with
  | some g =>
    match g.components with
    | some m => m
    | none => extractComponentsMapPages kb
  | none => extractComponentsMapPages kb

/-- The structured-record branch of `extractProjectBlock`. -/
def structuredProjectBlock (kb : KB) (projectName : Str) : Str :=
  let p : Option KBProject :=
    match kb.projects with
    | .pobj m =>
      match m.find? (fun kv => kv.1 == projectName) with
      | some kv => some kv.2
      | none => none
    | .parr l => l.find? (fun x => x.name == some projectName)
    | .pabsent => none
  match p with
  | none => []
  | some p =>
    let parts :=
      (match p.description with
        | some d => if d.isEmpty then [] else [d]
        | none => []) ++
      (match p.componentsUsed with
        | some cs => [strL ("Components Used:\n") ++ joinSep (strL ("\n")) cs]
        | none => []) ++
      (match p.connections with
        | some cs => [strL ("Connections:\n") ++ joinSep (strL ("\n")) cs]
        | none => []) ++
      (match p.steps with
        | some st => [strL ("Build Steps:\n") ++ joinSep (strL ("\n")) st]
        | none => [])
    sanitizeChunk (joinSep (strL ("\n\n")) parts)

/-- `extractProjectBlock(kb, projectName)`: a project-typed page, else a
six-page chunk around a "project name" mention, else the structured record. -/
def extractProjectBlock (kb : KB) (projectName : Str) : Str :=
  match kb.pages with
  | some pageList =>
    let pNorm := jsToLower projectName
    match pageList.find? (fun page =>
        page.ptype == some (strL ("project")) &&
        jsToLower (page.projectName.getD []) == pNorm) with
    | some page => sanitizeChunk (page.text.getD [])
    | none =>
      let pages := (pageList.map (fun pg => pg.text.getD [])).filter
        (fun t => !t.isEmpty)
      match pages.findIdx? (fun t =>
          let txt := jsToLower t
          containsSub txt (strL ("project name")) && containsSub txt pNorm) with
      | some start => sanitizeChunk (joinSep (strL ("\n\n")) ((pages.drop start).take 6))
      | none => structuredProjectBlock kb projectName
  | none => structuredProjectBlock kb projectName

/-- The free-text fallback of `extractLessons`: scan pages belonging to the
project for lesson blocks split on the lesson-delimiter regex. -/
def pagesLessons (kb : KB) (projectName : Str) : List Lesson :=
  match kb.pages with
  | none => dedupeLessons []
  | some pl =>
    let pages := pl.map (fun pg => pg.text.getD [])
    let p := jsToLower projectName
    let result := (pages.foldl (fun (st : Bool × List Lesson) txt =>
      let low := jsToLower txt
      let inProject :=
        if containsSub low (strL ("project:")) || containsSub low (strL ("project :")) ||
            containsSub low (strL ("project name")) then
          containsSub low p
        else st.1
      if !inProject then (inProject, st.2)
      else
        (inProject, st.2 ++ ((jsSplitCaps txt).drop 1).foldl (fun acc block =>
          let lessonName := lessonNameOf block
          let links := urlsIn block
          if !lessonName.isEmpty && !links.isEmpty then
            acc ++ [{ lessonName := jsTrim lessonName, videoLinks := uniq links,
                      explainLine := cleanExplain (explainLineOf block) }]
          else acc) [])) (false, [])).2
    dedupeLessons result

/-- `extractLessons(kb, projectName)`: expand structured lessons one entry per
video link (suffixing "Part N" when a lesson has several links), de-duplicated;
the page scan runs only when no structured lessons exist at all. -/
def extractLessons (kb : KB) (projectName : Str) : List Lesson :=
  match kb.lessons with
  | some kbLessons =>
    if kbLessons.isEmpty then pagesLessons kb projectName
    else
      dedupeLessons (kbLessons.foldl (fun acc l =>
        if l.project == some projectName then
          let links :=
            match l.video_url with
            | .varr urls => uniq (urls.map jsTrim)
            | .vstr u => [jsTrim u]
            | .vabsent => [[]]
          acc ++ links.enum.map (fun iu =>
            { lessonName :=
                if 1 < links.length then
                  strOfOptUndef l.lesson_name ++ strL (" - Part ") ++ natToStr (iu.1 + 1)
                else strOfOptUndef l.lesson_name,
              videoLinks := [iu.2], explainLine := [] })
        else acc) [])
  | none => pagesLessons kb projectName

/-- `extractCanonicalPins(kb)`: a three-page chunk from the first page
mentioning "fixed port mappings". -/
def extractCanonicalPins (kb : KB) : Str :=
  match kb.pages with
  | some pl =>
    let pages := pl.map (fun pg => pg.text.getD [])
    match pages.findIdx? (fun t => containsSub (jsToLower t) (strL ("fixed port mappings"))) with
    | some idx => sanitizeChunk (joinSep (strL ("\n\n")) ((pages.drop idx).take 3))
    | none => []
  | none => []

/-- `extractSafety(kb)`: a two-page chunk from the first page mentioning
"global safety". -/
def extractSafety (kb : KB) : Str :=
  match kb.pages with
  | some pl =>
    let pages := pl.map (fun pg => pg.text.getD [])
    match pages.findIdx? (fun t => containsSub (jsToLower t) (strL ("global safety"))) with
    | some idx => sanitizeChunk (joinSep (strL ("\n\n")) ((pages.drop idx).take 2))
    | none => []
  | none => []

/- -------------------- Index building (buildIndexes) -------------------- -/

/-- The record returned by `buildIndexes`.  The JS objects keyed by project
name are modelled as total functions that return the JS-lookup default
(empty) outside the key set. -/
structure Indexes where
  projectNames : List Str
  projectsByName : Str → Str
  lessonsByProject : Str → List Lesson
  canonicalPinsText : Str
  safetyText : Str
  kitOverview : Str
  componentsSummary : ComponentsSummaryT
  projectsSummary : ProjectsSummaryT
  componentsMap : List (Str × ComponentData)
  supportConfig : Option SupportCfg

/-- `buildIndexes(kb)`: per-project blocks and rank-sorted lesson lists for
every canonical project name, plus the global texts and maps. -/
def buildIndexes (kb : KB) : Indexes :=
  let projectNames := extractProjectNames kb
  { projectNames := projectNames,
    projectsByName := fun n =>
      if projectNames.contains n then extractProjectBlock kb n else [],
    lessonsByProject := fun n =>
      if projectNames.contains n then sortLessons (extractLessons kb n) else [],
    canonicalPinsText := extractCanonicalPins kb,
    safetyText := extractSafety kb,
    kitOverview := extractKitOverview kb,
    componentsSummary := extractComponentsSummary kb,
    projectsSummary := extractProjectsSummary kb,
    componentsMap := extractComponentsMap kb,
    supportConfig := extractSupportConfig kb }

/- -------------------- Grounded context (buildGroundedContext) -------------------- -/

/-- The options object passed to `buildGroundedContext`. -/
structure GCOpts where
  detectedProject : Option Str
  projectContext : Option Str
  lessonsByProject : Str → List Lesson
  canonicalPinsText : Str
  safetyText : Str
  kitOverview : Str
  componentsSummary : Option ComponentsSummaryT
  projectsSummary : Option ProjectsSummaryT

/-- `buildGroundedContext(opts)`: fixed section order, sections joined with a
blank line; empty safety/pins texts and absent summaries are skipped; the
project-focused sections are added only when both the detected project and its
block are truthy. -/
def buildGroundedContext (o : GCOpts) : Str :=
  let s1 := [strL ("=== KIT OVERVIEW ===\n") ++ o.kitOverview]
  let s2 :=
    if o.safetyText.isEmpty then s1
    else s1 ++ [strL ("=== SAFETY RULES ===\n") ++ o.safetyText ++
      strL ("\n\nIMPORTANT SAFETY NOTES:\n- It is SAFE to plug and unplug sensors and components while the Robocoders Brain is powered on.\n- The system uses low voltage (5V from USB), so there is no risk of electric shock.\n- However, always handle components gently to avoid physical damage.\n- Do not force connections - they should fit smoothly.")]
  let s3 :=
    if o.canonicalPinsText.isEmpty then s2
    else s2 ++ [strL ("=== PORT MAPPINGS ===\n") ++ o.canonicalPinsText]
  let s4 :=
    match o.componentsSummary with
    | none => s3
    | some cs => s3 ++ [strL ("=== COMPONENTS SUMMARY ===\n") ++
        strL ("Total Components: ") ++ natToStr cs.totalCount ++ strL ("\n") ++
        strL ("Categories available: ") ++ joinSep (strL (", ")) cs.categories]
  let s5 :=
    match o.projectsSummary with
    | none => s4
    | some ps => s4 ++ [strL ("=== PROJECTS SUMMARY ===\n") ++
        strL ("There are 50 projects, out of which ") ++ natToStr ps.totalCount ++
        strL (" are live. One project per week shall be launched.\n") ++
        strL ("Available Projects: ") ++ joinSep (strL (", ")) ps.projectList]
  let s6 :=
    if jsTruthyOpt o.detectedProject && jsTruthyOpt o.projectContext then
      let p := o.detectedProject.getD []
      let ctx := o.projectContext.getD []
      let withProj := s5 ++ [strL ("=== PROJECT: ") ++ p ++ strL (" ===\n") ++ ctx]
      let lessons := o.lessonsByProject p
      if lessons.isEmpty then withProj
      else withProj ++ [strL ("=== LESSONS FOR ") ++ p ++ strL (" ===\n") ++
        joinSep (strL ("\n\n")) (lessons.map (fun l =>
          strL ("- ") ++ l.lessonName ++ strL ("\n  ") ++ l.explainLine ++
          strL ("\n  Videos: ") ++ joinSep (strL (", ")) l.videoLinks))]
    else s5
  joinSep (strL ("\n\n")) s6

/-- The handler's context-building step (lines 317-330): look up the detected
project's block (empty block becomes null) and assemble the grounded
context from the built indexes. -/
def assembleContext (idx : Indexes) (detectedProject : Option Str) : Str :=
  let projectContext : Option Str :=
    match detectedProject with
    | some p => let b := idx.projectsByName p; if b.isEmpty then none else some b
    | none => none
  buildGroundedContext
    { detectedProject := detectedProject, projectContext := projectContext,
      lessonsByProject := idx.lessonsByProject,
      canonicalPinsText := idx.canonicalPinsText, safetyText := idx.safetyText,
      kitOverview := idx.kitOverview,
      componentsSummary := some idx.componentsSummary,
      projectsSummary := some idx.projectsSummary }

/- -------------------- Request parsing (handler lines 99-128) -------------------- -/

/-- A turn of the posted conversation history. -/
structure HistMsg where
  role : Option Str
  content : Option Str
deriving DecidableEq, Repr

/-- The posted `messages` field: a JSON string, an array, or something else. -/
inductive MessagesField where
  | mstr (s : Str)
  | marr (l : List HistMsg)
  | mabsent
deriving DecidableEq, Repr

/-- The request body fields the handler reads (`message`/`input` hold a value
only when the posted field is a string). -/
structure ReqBody where
  message : Option Str
  input : Option Str
  messages : MessagesField
deriving DecidableEq, Repr

/-- The validated request the handler continues with. -/
structure ParsedReq where
  message : Str
  history : List HistMsg
deriving DecidableEq, Repr

/-- The client-error outcome of request validation. -/
inductive ClientErr where
  | emptyMessageNoAttachment
deriving DecidableEq, Repr

/-- The trimmed message text (`body.message` if a string, else `body.input`). -/
def readMessage (b : ReqBody) : Str :=
  match b.message with
  | some m => jsTrim m
  | none =>
    match b.input with
    | some i => jsTrim i
    | none => []

/-- The parsed history: a string field goes through the JSON parser and a
parse failure is caught and replaced by the empty history. -/
def readHistory (b : ReqBody) (jsonParse : Str → Option (List HistMsg)) :
    List HistMsg :=
  match b.messages with
  | .mstr s => (jsonParse s).getD []
  | .marr l => l
  | .mabsent => []

/-- The input-validation stage of the handler: reject with a client error only
when the message is empty and no file was uploaded. -/
def validateRequest (b : ReqBody) (hasFile : Bool)
    (jsonParse : Str → Option (List HistMsg)) : Except ClientErr ParsedReq :=
  let message := readMessage b
  let history := readHistory b jsonParse
  if message.isEmpty && !hasFile then .error .emptyMessageNoAttachment
  else .ok { message := message, history := history }

/- -------------------- Handler dispatch (deterministic short-circuits) -------------------- -/

/-- Which reply path the handler takes after intent and project detection. -/
inductive Branch where
  | overviewB | componentsListB | listProjectsB
  | videosAskNameB | videosNoneB | videosListB | generationB
deriving DecidableEq, Repr

/-- The handler's if-chain over the raw intent and the raw detected project
(lines 166-256): deterministic short-circuits in source order, then the
generation path. -/
def dispatch (rawIntent : Intent) (rawDetectedProject : Option Str)
    (lessonsByProject : Str → List Lesson) : Branch :=
  if rawIntent == .KIT_OVERVIEW then .overviewB
  else if rawIntent == .COMPONENTS_LIST then .componentsListB
  else if rawIntent == .LIST_PROJECTS && !jsTruthyOpt rawDetectedProject then
    .listProjectsB
  else if rawIntent == .PROJECT_VIDEOS then
    if !jsTruthyOpt rawDetectedProject then .videosAskNameB
    else if (lessonsByProject (rawDetectedProject.getD [])).isEmpty then .videosNoneB
    else .videosListB
  else .generationB

/-- The handler on one request text: build the indexes, run intent and project
detection on the raw text, and dispatch. -/
def handlerBranch (kb : KB) (text : Str) : Branch :=
  let idx := buildIndexes kb
  dispatch (detectIntent text idx.projectNames idx.componentsMap)
    (detectProject text idx.projectNames) idx.lessonsByProject

/- -------------------- Fixtures used by the theorems below -------------------- -/

/-- Comparator relation of the lesson sort: rank of the left lesson is at most
the rank of the right one. -/
def rankLe (a b : Lesson) : Prop := lessonRank a.lessonName ≤ lessonRank b.lessonName

instance : DecidableRel rankLe := fun _ _ => Nat.decLe _ _

/-- A knowledge base whose structured lessons arrive in mixed topical order. -/
def kbSortWitness : KB :=
  { emptyKB with lessons := some [
      { project := some (strL ("Mood Lamp")), lesson_name := some (strL ("Working Demo")),
        video_url := .vstr (strL ("https://v.example/w")) },
      { project := some (strL ("Mood Lamp")), lesson_name := some (strL ("Intro")),
        video_url := .vstr (strL ("https://v.example/i")) },
      { project := some (strL ("Mood Lamp")), lesson_name := some (strL ("Build 1")),
        video_url := .vstr (strL ("https://v.example/b1")) },
      { project := some (strL ("Mood Lamp")), lesson_name := some (strL ("Connection Setup")),
        video_url := .vstr (strL ("https://v.example/c")) },
      { project := some (strL ("Mood Lamp")), lesson_name := some (strL ("Coding Part 1")),
        video_url := .vstr (strL ("https://v.example/cp")) },
      { project := some (strL ("Mood Lamp")), lesson_name := some (strL ("Build 2")),
        video_url := .vstr (strL ("https://v.example/b2")) }] }

/-- A knowledge base that supplies an explicit project list of its own. -/
def kbExplicitList : KB :=
  { emptyKB with projects := .parr [
      { name := some (strL ("My Custom Project")), description := none,
        componentsUsed := none, connections := none, steps := none }] }

/-- Indexes as the handler would hold them with a block for Candle Lamp only. -/
def idxBase : Indexes :=
  { projectNames := fallbackProjectNames,
    projectsByName := fun n =>
      if n == strL ("Candle Lamp") then strL ("Candle block: LED, battery") else [],
    lessonsByProject := fun _ => [],
    canonicalPinsText := [], safetyText := [],
    kitOverview := strL ("overview"),
    componentsSummary := { totalCount := 92, categories := [] },
    projectsSummary := { totalCount := 21, projectList := fallbackProjectNames },
    componentsMap := [], supportConfig := none }

/-- A block table that agrees with `idxBase` at Candle Lamp but leaks data for
every other name. -/
def leakedBlocks : Str → Str := fun n =>
  if n == strL ("Candle Lamp") then strL ("Candle block: LED, battery")
  else strL ("SECRET OTHER PROJECT BLOCK")

/-- A lesson table that agrees with `idxBase` at Candle Lamp but not
elsewhere. -/
def leakedLessons : Str → List Lesson := fun n =>
  if n == strL ("Candle Lamp") then []
  else [{ lessonName := strL ("Secret"), videoLinks := [], explainLine := [] }]

/-- A request body with a non-empty message and an unparseable history. -/
def badBody : ReqBody :=
  { message := some (strL ("hi")), input := none, messages := .mstr (strL ("not json")) }

/-- A request body with an empty message and no usable fields. -/
def emptyBody : ReqBody := { message := some [], input := none, messages := .mabsent }

/- -------------------- Helper lemmas: the stable lesson sort -------------------- -/

/-- Membership in an insertion. -/
theorem mem_insAfterLe (x z : Lesson) :
    ∀ (l : List Lesson), z ∈ insAfterLe x l → z = x ∨ z ∈ l := by
  intro l
  induction l with
  | nil =>
    intro h
    simp only [insAfterLe, List.mem_singleton] at h
    exact Or.inl h
  | cons y ys ih =>
    intro h
    simp only [insAfterLe] at h
    by_cases hc : lessonRank y.lessonName ≤ lessonRank x.lessonName
    · rw [if_pos hc] at h
      rcases List.mem_cons.mp h with h1 | h2
      · exact Or.inr (List.mem_cons.mpr (Or.inl h1))
      · rcases ih h2 with h3 | h4
        · exact Or.inl h3
        · exact Or.inr (List.mem_cons.mpr (Or.inr h4))
    · rw [if_neg hc] at h
      rcases List.mem_cons.mp h with h1 | h2
      · exact Or.inl h1
      · exact Or.inr h2

/-- Inserting into a rank-sorted list keeps it rank-sorted. -/
theorem pairwise_insAfterLe (x : Lesson) :
    ∀ (l : List Lesson), l.Pairwise rankLe → (insAfterLe x l).Pairwise rankLe := by
  intro l
  induction l with
  | nil => intro _; simp [insAfterLe]
  | cons y ys ih =>
    intro hp
    rcases List.pairwise_cons.mp hp with ⟨hy, hys⟩
    simp only [insAfterLe]
    by_cases hc : lessonRank y.lessonName ≤ lessonRank x.lessonName
    · rw [if_pos hc]
      refine List.pairwise_cons.mpr ⟨?_, ih hys⟩
      intro z hz
      rcases mem_insAfterLe x z ys hz with rfl | hzys
      · exact hc
      · exact hy z hzys
    · rw [if_neg hc]
      refine List.pairwise_cons.mpr ⟨?_, hp⟩
      intro z hz
      rcases List.mem_cons.mp hz with rfl | hzys
      · exact Nat.le_of_not_le hc
      · exact Nat.le_trans (Nat.le_of_not_le hc) (hy z hzys)

/-- Where an insertion puts the new lesson among lessons of each rank: after
all previously placed lessons of that rank. -/
theorem filter_insAfterLe (x : Lesson) (r : Nat) :
    ∀ (l : List Lesson), l.Pairwise rankLe →
    (insAfterLe x l).filter (fun e => lessonRank e.lessonName == r) =
      l.filter (fun e => lessonRank e.lessonName == r) ++
      (if lessonRank x.lessonName == r then [x] else []) := by
  intro l
  induction l with
  | nil =>
    intro _
    simp [insAfterLe, List.filter_cons]
  | cons y ys ih =>
    intro hp
    rcases List.pairwise_cons.mp hp with ⟨hy, hys⟩
    simp only [insAfterLe]
    by_cases hc : lessonRank y.lessonName ≤ lessonRank x.lessonName
    · rw [if_pos hc]
      simp only [List.filter_cons, ih hys]
      cases hyr : (lessonRank y.lessonName == r) <;> simp
    · rw [if_neg hc]
      by_cases hxr : (lessonRank x.lessonName == r) = true
      · have hxr' : lessonRank x.lessonName = r := by simpa using hxr
        have hnil : (y :: ys).filter (fun e => lessonRank e.lessonName == r) = [] := by
          refine List.filter_eq_nil_iff.mpr ?_
          intro a ha
          have hge : lessonRank y.lessonName ≤ lessonRank a.lessonName := by
            rcases List.mem_cons.mp ha with rfl | h2
            · exact Nat.le_refl _
            · exact hy a h2
          have hlt : r < lessonRank a.lessonName :=
            Nat.lt_of_lt_of_le (hxr' ▸ Nat.lt_of_not_le hc) hge
          simp only [beq_iff_eq]
          omega
        rw [List.filter_cons, hnil]
        simp [hxr]
      · rw [List.filter_cons]
        simp [hxr]

/-- The fold of insertions is rank-sorted, and within each rank it is the
original input in order, appended after the accumulator. -/
theorem sortGo_pairwise_filter :
    ∀ (l acc : List Lesson), acc.Pairwise rankLe →
    (l.foldl (fun a x => insAfterLe x a) acc).Pairwise rankLe ∧
    ∀ r, (l.foldl (fun a x => insAfterLe x a) acc).filter
        (fun e => lessonRank e.lessonName == r) =
      acc.filter (fun e => lessonRank e.lessonName == r) ++
      l.filter (fun e => lessonRank e.lessonName == r) := by
  intro l
  induction l with
  | nil =>
    intro acc h
    exact ⟨h, fun r => by simp⟩
  | cons x xs ih =>
    intro acc h
    have h2 := pairwise_insAfterLe x acc h
    rcases ih (insAfterLe x acc) h2 with ⟨hp, hf⟩
    refine ⟨hp, fun r => ?_⟩
    simp only [List.foldl_cons]
    rw [hf r, filter_insAfterLe x r acc h, List.filter_cons]
    cases hx : (lessonRank x.lessonName == r) <;> simp [List.append_assoc]

/-- `sortLessons` is sorted by rank. -/
theorem sortLessons_pairwise (l : List Lesson) : (sortLessons l).Pairwise rankLe :=
  (sortGo_pairwise_filter l [] (by simp)).1

/-- `sortLessons` is stable: the lessons of each rank are exactly the input
ones in their original order. -/
theorem sortLessons_filter (l : List Lesson) (r : Nat) :
    (sortLessons l).filter (fun e => lessonRank e.lessonName == r) =
      l.filter (fun e => lessonRank e.lessonName == r) := by
  have h := (sortGo_pairwise_filter l [] (by simp)).2 r
  simpa [sortLessons] using h

/- -------------------- Helper lemmas: detectProject membership -------------------- -/

/-- The scan returns either an exact match from the candidate list or a best
candidate that is the initial one or from the list. -/
theorem detectProjectScan_spec (lower : Str) :
    ∀ (names : List Str) (best : Option Str) (sc : Nat) (p : Str),
    (detectProjectScan lower names best sc = .exact p → p ∈ names) ∧
    (∀ s2, detectProjectScan lower names best sc = .finish (some p) s2 →
      best = some p ∨ p ∈ names) := by
  intro names
  induction names with
  | nil =>
    intro best sc p
    constructor
    · intro h; simp [detectProjectScan] at h
    · intro s2 h
      simp only [detectProjectScan, ScanOut.finish.injEq] at h
      exact Or.inl h.1
  | cons q rest ih =>
    intro best sc p
    simp only [detectProjectScan]
    by_cases he : (lower == jsToLower q) = true
    · rw [if_pos he]
      constructor
      · intro h
        simp only [ScanOut.exact.injEq] at h
        exact h ▸ List.mem_cons_self q rest
      · intro s2 h
        simp at h
    · rw [if_neg he]
      by_cases hs : sc < projectScore lower q
      · rw [if_pos hs]
        rcases ih (some q) (projectScore lower q) p with ⟨ih1, ih2⟩
        constructor
        · intro h; exact List.mem_cons_of_mem _ (ih1 h)
        · intro s2 h
          rcases ih2 s2 h with h1 | h2
          · have h1' : q = p := by simpa using h1
            exact Or.inr (h1' ▸ List.mem_cons_self q rest)
          · exact Or.inr (List.mem_cons_of_mem _ h2)
      · rw [if_neg hs]
        rcases ih best sc p with ⟨ih1, ih2⟩
        constructor
        · intro h; exact List.mem_cons_of_mem _ (ih1 h)
        · intro s2 h
          rcases ih2 s2 h with h1 | h2
          · exact Or.inl h1
          · exact Or.inr (List.mem_cons_of_mem _ h2)

/-- A detected project always comes from the candidate list. -/
theorem detectProject_mem (text : Str) (names : List Str) (p : Str)
    (h : detectProject text names = some p) : p ∈ names := by
  unfold detectProject at h
  cases hscan : detectProjectScan (jsTrim (jsToLower text)) names none 0 with
  | exact n =>
    rw [hscan] at h
    have hn : n = p := by simpa using h
    exact hn ▸ (detectProjectScan_spec _ names none 0 n).1 hscan
  | finish b sc =>
    rw [hscan] at h
    dsimp only at h
    by_cases h3 : 3 ≤ sc
    · rw [if_pos h3] at h
      rcases (detectProjectScan_spec _ names none 0 p).2 sc (h ▸ hscan) with h1 | h2
      · simp at h1
      · exact h2
    · rw [if_neg h3] at h
      simp at h

/-- Every canonical project name is non-empty. -/
theorem fallback_names_nonempty : ∀ q ∈ fallbackProjectNames, q ≠ ([] : Str) := by decide

/-- On the canonical list, the JS truthiness of the detection result is just
option-ness: a detected name is never the empty string. -/
theorem detectProject_truthy (text : Str) :
    jsTruthyOpt (detectProject text fallbackProjectNames) =
      (detectProject text fallbackProjectNames).isSome := by
  cases h : detectProject text fallbackProjectNames with
  | none => simp [jsTruthyOpt]
  | some p =>
    have hp := detectProject_mem text _ p h
    have hne : p ≠ [] := fallback_names_nonempty p hp
    simp [jsTruthyOpt, List.isEmpty_iff, hne]

/-- Case analysis of the handler's dispatch chain (given that truthiness of
the detected project coincides with option-ness). -/
theorem dispatch_cases (i : Intent) (d : Option Str) (ls : Str → List Lesson)
    (htr : jsTruthyOpt d = d.isSome) :
    (dispatch i d ls = .listProjectsB ↔ (i = .LIST_PROJECTS ∧ d = none)) ∧
    (i = .LIST_PROJECTS → d ≠ none → dispatch i d ls = .generationB) := by
  cases i <;> cases d <;> simp [dispatch, htr]
  split <;> simp

/- ==================== Claim theorems ==================== -/

/-- C1 (amended): the grounded context assembled for a detected project A
depends only on A's own block and A's own lesson list — replacing every other
project's block or lessons changes nothing — so the project-focused section
holds only A's data; the literal names of the other canonical projects do
still appear, in the projects-summary section. -/
theorem c1_context_reads_only_detected_project_data :
    ∀ (idx : Indexes) (f : Str → Str) (g : Str → List Lesson) (A : Str),
    f A = idx.projectsByName A →
    g A = idx.lessonsByProject A →
    assembleContext { idx with projectsByName := f, lessonsByProject := g } (some A) =
      assembleContext idx (some A) := by
  intro idx f g A hf hg
  dsimp only [assembleContext, buildGroundedContext, Option.getD]
  rw [hf, hg]

/-- C1 witness: blocks and lessons of all other projects may change freely
without altering the context assembled for Candle Lamp. -/
theorem c1_witness :
    assembleContext
      { idxBase with projectsByName := leakedBlocks, lessonsByProject := leakedLessons }
      (some (strL ("Candle Lamp"))) =
      assembleContext idxBase (some (strL ("Candle Lamp"))) :=
  c1_context_reads_only_detected_project_data idxBase leakedBlocks leakedLessons
    (strL ("Candle Lamp")) (by decide) (by decide)

/-- C1 counterexample: the context assembled for Candle Lamp contains the
literal name "Mood Lamp" (in the projects-summary section), so the claim that
no other canonical project's name ever occurs is false. -/
theorem c1_other_project_name_in_context :
    containsSub (assembleContext idxBase (some (strL ("Candle Lamp"))))
      (strL ("Mood Lamp")) = true := by decide

/-- C2 (amended): whenever the missing-part pattern matches the text, the
detector answers PART_MISSING unless the higher-precedence support-request
pattern matched first — first-match-wins with PART_MISSING (pattern 2) ahead
of HARDWARE_DAMAGED (pattern 3). -/
theorem c2_missing_pattern_precedes_damage :
    ∀ (userText : Str) (dp pc dc : Option Str),
    anyPat (jsToLower userText) partMissingPats = true →
    detectSupportFailure userText dp pc dc = some .USER_REQUESTED_SUPPORT ∨
    detectSupportFailure userText dp pc dc = some .PART_MISSING := by
  intro ut dp pc dc h
  simp only [detectSupportFailure]
  by_cases h1 : anyPat (jsToLower ut) supportContactPats = true
  · simp [h1]
  · simp [h1, h]

/-- C2 witness: the missing-part pattern matches the disputed input, and the
detector indeed answers with one of the two higher-precedence reasons. -/
theorem c2_witness :
    anyPat (jsToLower (strL ("my motor is broken and missing"))) partMissingPats = true ∧
    (detectSupportFailure (strL ("my motor is broken and missing")) none none none =
        some .USER_REQUESTED_SUPPORT ∨
     detectSupportFailure (strL ("my motor is broken and missing")) none none none =
        some .PART_MISSING) :=
  ⟨by decide, c2_missing_pattern_precedes_damage (strL ("my motor is broken and missing"))
    none none none (by decide)⟩

/-- C2 counterexample: on "my motor is broken and missing" the detector
returns PART_MISSING, not HARDWARE_DAMAGED as the claim states. -/
theorem c2_broken_and_missing_is_part_missing :
    detectSupportFailure (strL ("my motor is broken and missing")) none none none =
      some .PART_MISSING ∧
    ¬ detectSupportFailure (strL ("my motor is broken and missing")) none none none =
      some .HARDWARE_DAMAGED := by
  constructor <;> decide

/-- C3 (amended): the project-name list built by `buildIndexes` is always the
fixed hard-coded canonical list; the knowledge base is never consulted. -/
theorem c3_project_names_fixed_list :
    ∀ (kb : KB), (buildIndexes kb).projectNames = fallbackProjectNames :=
  fun _ => rfl

/-- C3 counterexample: a knowledge base supplying its own explicit project
list does not get it used verbatim — the hard-coded list is returned
instead. -/
theorem c3_kb_list_ignored :
    (buildIndexes kbExplicitList).projectNames ≠ [strL ("My Custom Project")] ∧
    (buildIndexes kbExplicitList).projectNames = fallbackProjectNames := by
  constructor <;> decide

/-- C4 (amended): a candidate is accepted exactly when its score reaches 3,
but one shared word already scores 3, so "hello there" (sharing "hello" with
"Hello World!") is matched; text sharing no word, substring or collapsed
substring with any canonical name, such as "hi there", yields none. -/
theorem c4_threshold_and_single_word_overlap :
    detectProject (strL ("hi there")) fallbackProjectNames = none ∧
    detectProject (strL ("hello there")) fallbackProjectNames =
      some (strL ("Hello World!")) := by
  constructor <;> decide

/-- C4 counterexample: the claim's own example input "hello there" does not
return none. -/
theorem c4_hello_there_matches_hello_world :
    ¬ detectProject (strL ("hello there")) fallbackProjectNames = none := by decide

/-- C5 (code bug): for "tell me about the mood lamp kit" the classifier
returns KIT_OVERVIEW even though the project name "Mood Lamp" occurs in the
text — the suppression clause guards only the what-robocoders pattern because
JS `&&` binds tighter than `||`. -/
theorem c5_kit_overview_not_suppressed :
    detectIntent (strL ("tell me about the mood lamp kit")) fallbackProjectNames [] =
      .KIT_OVERVIEW ∧
    fallbackProjectNames.any (fun proj =>
      containsSub (jsTrim (jsToLower (strL ("tell me about the mood lamp kit"))))
        (jsToLower proj)) = true := by
  constructor <;> decide

/-- C6 (amended): the assembler adds no instruction fragment when no project
is detected — it simply omits the project-focused sections; the prompt asking
for the exact project name is issued instead by the deterministic
PROJECT_VIDEOS branch of the handler when no project is detected. -/
theorem c6_videos_branch_asks_for_project :
    ∀ (kb : KB) (text : Str),
    detectIntent text (buildIndexes kb).projectNames (buildIndexes kb).componentsMap =
      .PROJECT_VIDEOS →
    detectProject text (buildIndexes kb).projectNames = none →
    handlerBranch kb text = .videosAskNameB := by
  intro kb text hi hd
  simp only [handlerBranch] at *
  rw [hi, hd]
  simp [dispatch, jsTruthyOpt]

/-- C6 witness: "show me some videos" classifies as PROJECT_VIDEOS with no
detected project, and the handler answers with the ask-for-project-name
branch. -/
theorem c6_witness :
    detectIntent (strL ("show me some videos")) (buildIndexes emptyKB).projectNames
      (buildIndexes emptyKB).componentsMap = .PROJECT_VIDEOS ∧
    detectProject (strL ("show me some videos")) (buildIndexes emptyKB).projectNames = none ∧
    handlerBranch emptyKB (strL ("show me some videos")) = .videosAskNameB :=
  ⟨by decide, by decide,
   c6_videos_branch_asks_for_project emptyKB (strL ("show me some videos"))
     (by decide) (by decide)⟩

/-- C6 counterexample: with no detected project the grounded context the
handler assembles from an empty knowledge base contains no instruction
fragment — not even the words "ask", "project name" or "exact" occur in it. -/
theorem c6_no_instruction_fragment :
    containsSub (jsToLower (assembleContext (buildIndexes emptyKB) none)) (strL ("ask")) = false ∧
    containsSub (jsToLower (assembleContext (buildIndexes emptyKB) none)) (strL ("project name")) = false ∧
    containsSub (jsToLower (assembleContext (buildIndexes emptyKB) none)) (strL ("exact")) = false := by
  refine ⟨?_, ?_, ?_⟩ <;> decide

/-- C7: for every canonical project, the lesson index built by `buildIndexes`
is sorted by the fixed topical rank (Connection 1, Build 2, Coding 3,
Working 4, Intro 5, everything else 99) and the sort is stable: for each rank
the lessons are exactly the extracted ones in their original relative order,
whatever the knowledge base and input order. -/
theorem c7_lesson_index_sorted_stable :
    ∀ (kb : KB) (p : Str), p ∈ fallbackProjectNames →
    ((buildIndexes kb).lessonsByProject p).Pairwise rankLe ∧
    ∀ r, ((buildIndexes kb).lessonsByProject p).filter
        (fun e => lessonRank e.lessonName == r) =
      (extractLessons kb p).filter (fun e => lessonRank e.lessonName == r) := by
  intro kb p hp
  have hc : fallbackProjectNames.contains p = true := by
    simpa using List.elem_iff.mpr hp
  have hix : (buildIndexes kb).lessonsByProject p =
      sortLessons (extractLessons kb p) := by
    simp only [buildIndexes, extractProjectNames]
    rw [if_pos hc]
  rw [hix]
  exact ⟨sortLessons_pairwise _, fun r => sortLessons_filter _ r⟩

/-- C7 witness: a mixed-order lesson list for Mood Lamp is rank-sorted and
rank-2 (Build) lessons keep their original order. -/
theorem c7_witness :
    ((buildIndexes kbSortWitness).lessonsByProject (strL ("Mood Lamp"))).Pairwise rankLe ∧
    ((buildIndexes kbSortWitness).lessonsByProject (strL ("Mood Lamp"))).filter
        (fun e => lessonRank e.lessonName == 2) =
      (extractLessons kbSortWitness (strL ("Mood Lamp"))).filter
        (fun e => lessonRank e.lessonName == 2) :=
  ⟨(c7_lesson_index_sorted_stable kbSortWitness (strL ("Mood Lamp")) (by decide)).1,
   (c7_lesson_index_sorted_stable kbSortWitness (strL ("Mood Lamp")) (by decide)).2 2⟩

/-- C8: an input equal (up to letter case, after trimming) to a canonical
project name always detects exactly that project: the exact case-insensitive
comparison short-circuits the scan regardless of all other candidates. -/
theorem c8_exact_match_wins :
    ∀ (P : Str), P ∈ fallbackProjectNames →
    detectProject P fallbackProjectNames = some P ∧
    ∀ (input : Str), jsTrim (jsToLower input) = jsToLower P →
      detectProject input fallbackProjectNames = some P := by
  intro P hP
  fin_cases hP <;>
    exact ⟨by decide, fun input h => by unfold detectProject; rw [h]; decide⟩

/-- C8 witness: "MOOD LAMP" detects the canonical "Mood Lamp". -/
theorem c8_witness :
    strL ("Mood Lamp") ∈ fallbackProjectNames ∧
    detectProject (strL ("MOOD LAMP")) fallbackProjectNames =
      some (strL ("Mood Lamp")) :=
  ⟨by decide,
   (c8_exact_match_wins (strL ("Mood Lamp")) (by decide)).2
     (strL ("MOOD LAMP")) (by decide)⟩

/-- C9 (amended): an empty message with no attachment is rejected immediately
as a client error, but a history field that fails to parse is not rejected —
it is silently replaced by the empty history and the request proceeds. -/
theorem c9_empty_rejected_malformed_history_defaults :
    ∀ (b : ReqBody) (jsonParse : Str → Option (List HistMsg)),
    (readMessage b = [] →
      validateRequest b false jsonParse = .error .emptyMessageNoAttachment) ∧
    (∀ s2, b.messages = .mstr s2 → jsonParse s2 = none → readMessage b ≠ [] →
      validateRequest b false jsonParse = .ok { message := readMessage b, history := [] }) := by
  intro b jp
  constructor
  · intro h
    simp [validateRequest, h]
  · intro s2 hm hp hne
    simp [validateRequest, readHistory, hm, hp, List.isEmpty_iff, hne]

/-- C9 witness: the empty request is rejected, and a request with message
"hi" and unparseable history is accepted with the empty history. -/
theorem c9_witness :
    validateRequest emptyBody false (fun _ => none) = .error .emptyMessageNoAttachment ∧
    validateRequest badBody false (fun _ => none) =
      .ok { message := strL ("hi"), history := [] } :=
  ⟨(c9_empty_rejected_malformed_history_defaults emptyBody (fun _ => none)).1 (by decide),
   (c9_empty_rejected_malformed_history_defaults badBody (fun _ => none)).2
     (strL ("not json")) (by decide) rfl (by decide)⟩

/-- C9 counterexample: a request whose history fails to parse is not reported
as a client error — validation succeeds with the substituted empty history. -/
theorem c9_malformed_history_not_rejected :
    validateRequest badBody false (fun _ => none) =
      .ok { message := strL ("hi"), history := [] } := by rfl

/-- C10: the deterministic LIST_PROJECTS short-circuit is taken exactly when
the raw intent is LIST_PROJECTS and project detection on the raw text returns
none; with a detected project the request instead reaches the generation
path. -/
theorem c10_list_projects_shortcircuit_iff :
    ∀ (kb : KB) (text : Str),
    (handlerBranch kb text = .listProjectsB ↔
      (detectIntent text (buildIndexes kb).projectNames (buildIndexes kb).componentsMap =
          .LIST_PROJECTS ∧
       detectProject text (buildIndexes kb).projectNames = none)) ∧
    (detectIntent text (buildIndexes kb).projectNames (buildIndexes kb).componentsMap =
        .LIST_PROJECTS →
     detectProject text (buildIndexes kb).projectNames ≠ none →
     handlerBranch kb text = .generationB) := by
  intro kb text
  have hnames : (buildIndexes kb).projectNames = fallbackProjectNames := rfl
  have htr := detectProject_truthy text
  simp only [handlerBranch]
  rw [hnames]
  exact dispatch_cases _ _ _ htr

/-- C10 witness: "list all projects" takes the deterministic list branch, and
"list all projects mood lamp" (same intent, project detected) goes to
generation. -/
theorem c10_witness :
    handlerBranch emptyKB (strL ("list all projects")) = .listProjectsB ∧
    handlerBranch emptyKB (strL ("list all projects mood lamp")) = .generationB :=
  ⟨(c10_list_projects_shortcircuit_iff emptyKB (strL ("list all projects"))).1.mpr
     ⟨by decide, by decide⟩,
   (c10_list_projects_shortcircuit_iff emptyKB (strL ("list all projects mood lamp"))).2
     (by decide) (by decide)⟩
